import Mathlib

set_option linter.unusedTactic false

/-!
Verification of the FWD_SUI multi-signature treasury controller
(`Deboproj/treasury_system`): a shallow embedding of the data model,
policy engine and treasury state machine, together with theorems that
settle the specification's claims against the code.

Conventions of the embedding:
* Monetary amounts and timestamps are rationals (`ℚ`); the source uses
  Python floats and `datetime` values with second-level arithmetic.
* Python `int` values (signature thresholds, lock durations) are `ℤ`.
* Python dicts are association lists (`List (key × value)`); `aset`
  mirrors dict assignment (replace in place, else append), `aerase`
  mirrors `del`.
* Python sets of strings are `Finset String`.
* A method that can raise returns `State × Except Err α`: the returned
  state carries every mutation performed before the raise, exactly as
  the exception leaves the Python objects.
* Exception messages keep the static text of the raise site; interpolated
  values are dropped.
* UUID generation is modelled by a fresh-counter (`nextProposalId`,
  `nextActionId`); ids are `Nat`.
* `Transaction.compute_hash` is SHA-256 of the canonical JSON in the
  source; no claim inspects digest values, so the embedding keeps only a
  deterministic string of the identifying fields.
* `SpendingLimitPolicy` is not embedded: its period windows are calendar
  computations (local midnight, ISO weeks, month starts) outside this
  model of time, and no claim depends on it.  The policy-manager state is
  quantified over all managers built from the remaining five variants.
* The audit log keeps `(action, actor, proposal_id)`; the source stamps
  entries with the wall clock (`datetime.now()`), which is external here.
-/

namespace FwdSui

/-- Association-list lookup, modelling Python `d[k]` / `k in d`. -/
def alookup {κ α : Type} [DecidableEq κ] : List (κ × α) → κ → Option α
  | [], _ => none
  | (k, v) :: rest, key => if key = k then some v else alookup rest key

/-- Association-list assignment, modelling Python `d[k] = v`: replaces the
binding in place when the key is present, appends otherwise. -/
def aset {κ α : Type} [DecidableEq κ] : List (κ × α) → κ → α → List (κ × α)
  | [], key, v => [(key, v)]
  | (k, w) :: rest, key, v =>
      if key = k then (key, v) :: rest else (k, w) :: aset rest key v

/-- Association-list deletion, modelling Python `del d[k]` / `d.pop(k)`. -/
def aerase {κ α : Type} [DecidableEq κ] : List (κ × α) → κ → List (κ × α)
  | [], _ => []
  | (k, w) :: rest, key => if key = k then rest else (k, w) :: aerase rest key

/-- Lookup with a default, modelling Python `d.get(k, default)`. -/
def agetD {κ α : Type} [DecidableEq κ] (l : List (κ × α)) (key : κ) (d : α) : α :=
  (alookup l key).getD d

/-- Python `int(q)` on a rational: truncation toward zero. -/
def pyInt (q : ℚ) : ℤ := if q < 0 then ⌈q⌉ else ⌊q⌋

/-! ## Domain model (`models.py`) -/

/-- `Category` enum. -/
inductive Category where
  | operations | marketing | development | research | security | other
deriving DecidableEq

/-- `ProposalStatus` enum. -/
inductive ProposalStatus where
  | pending | timeLocked | readyToExecute | executed | cancelled | failed
deriving DecidableEq

/-- `TransactionType` enum. -/
inductive TransactionType where
  | transfer | burn | mint
deriving DecidableEq

/-- `Transaction` record (the free-form `metadata` dict is dropped: it is
never read by any code path a claim touches). -/
structure Transaction where
  txId : String
  txType : TransactionType
  recipient : String
  amount : ℚ
  coinType : String
  description : String
deriving DecidableEq

/-- `Transaction.compute_hash`: the source hashes the canonical JSON with
SHA-256; every claim treats the digest as opaque, so the embedding keeps a
deterministic string of the identifying fields. -/
def Transaction.computeHash (tx : Transaction) : String :=
  tx.txId ++ "|" ++ tx.recipient ++ "|" ++ tx.coinType

/-- `Signature` record. -/
structure Signature where
  signer : String
  sigBytes : String
  timestamp : ℚ
  txHash : String
deriving DecidableEq

/-- `Proposal` record. -/
structure Proposal where
  proposalId : Nat
  creator : String
  transactions : List Transaction
  category : Category
  description : String
  thresholdRequired : ℤ
  createdAt : ℚ
  timeLockDuration : ℤ
  status : ProposalStatus
  signatures : List (String × Signature)
  executedAt : Option ℚ
  cancelledAt : Option ℚ
deriving DecidableEq

/-- `Proposal.can_execute`. -/
def Proposal.canExecute (p : Proposal) (t : ℚ) : Bool :=
  decide (p.createdAt + (p.timeLockDuration : ℚ) ≤ t) &&
  decide (p.thresholdRequired ≤ (p.signatures.length : ℤ)) &&
  (decide (p.status = .pending) || decide (p.status = .timeLocked))

/-- `SpendingRecord` record. -/
structure SpendingRecord where
  amount : ℚ
  timestamp : ℚ
  category : Category
  proposalId : Nat
  txHash : String
deriving DecidableEq

/-- `EmergencyAction` record. -/
structure EmergencyAction where
  actionId : Nat
  actionType : String
  initiatedBy : String
  initiatedAt : ℚ
  reason : String
  signatures : List (String × Signature)
  executed : Bool
  executedAt : Option ℚ
deriving DecidableEq

/-- `TreasuryConfig` record. -/
structure TreasuryConfig where
  treasuryId : String
  signers : Finset String
  threshold : ℤ
  emergencyThreshold : ℤ
  emergencySigners : Finset String
  emergencyCooldown : ℤ
  lastEmergencyAt : Option ℚ
deriving DecidableEq

/-- `TreasuryConfig.can_trigger_emergency`. -/
def TreasuryConfig.canTriggerEmergency (cfg : TreasuryConfig) (t : ℚ) : Bool :=
  match cfg.lastEmergencyAt with
  | none => true
  | some last => decide ((cfg.emergencyCooldown : ℚ) ≤ t - last)

/-! ## Policies (`policies.py`) -/

/-- `PolicyViolation` payload: the raising policy and its message. -/
structure PolicyViolation where
  policyName : String
  message : String
deriving DecidableEq

/-- The mutable `context` dict threaded through policy validation.  The
two output channels start at the value every `context.get` default
supplies (`0`), matching both an absent key and the explicit `0`
initialisation in the manager entry points. -/
structure ValidationContext where
  category : Option Category
  currentTime : ℚ
  signatures : List (String × Signature)
  requiredTimeLock : ℤ
  requiredThreshold : ℤ
deriving DecidableEq

/-- `WhitelistPolicy` state. -/
structure WhitelistPolicy where
  policyId : String
  enabled : Bool
  approvedRecipients : Finset String
  blacklistedRecipients : Finset String
  temporaryEntries : List (String × ℚ)
deriving DecidableEq

/-- `WhitelistPolicy.is_recipient_approved`; an expired temporary entry is
deleted as a side effect, so the (possibly) updated policy is returned. -/
def WhitelistPolicy.isRecipientApproved (p : WhitelistPolicy) (recipient : String) (t : ℚ) :
    Bool × WhitelistPolicy :=
  if recipient ∈ p.blacklistedRecipients then (false, p)
  else if recipient ∈ p.approvedRecipients then (true, p)
  else
    match alookup p.temporaryEntries recipient with
    | some expiresAt =>
        if t < expiresAt then (true, p)
        else (false, { p with temporaryEntries := aerase p.temporaryEntries recipient })
    | none => (false, p)

/-- `WhitelistPolicy.validate`. -/
def WhitelistPolicy.validate (p : WhitelistPolicy) (tx : Transaction) (ctx : ValidationContext) :
    WhitelistPolicy × ValidationContext × Option PolicyViolation :=
  if p.enabled = false then (p, ctx, none)
  else
    match p.isRecipientApproved tx.recipient ctx.currentTime with
    | (true, p2) => (p2, ctx, none)
    | (false, p2) => (p2, ctx, some ⟨p.policyId, "Recipient is not whitelisted"⟩)

/-- `CategoryPolicy` state (`category_thresholds` is never read by
`validate` in the source; kept for completeness). -/
structure CategoryPolicy where
  policyId : String
  enabled : Bool
  requiredCategories : Finset Category
  categoryThresholds : List (Category × ℤ)
deriving DecidableEq

/-- `CategoryPolicy.validate`. -/
def CategoryPolicy.validate (p : CategoryPolicy) (_tx : Transaction) (ctx : ValidationContext) :
    CategoryPolicy × ValidationContext × Option PolicyViolation :=
  if p.enabled = false then (p, ctx, none)
  else
    match ctx.category with
    | none => (p, ctx, some ⟨p.policyId, "Transaction must have a category assigned"⟩)
    | some c =>
        if p.requiredCategories ≠ ∅ ∧ c ∉ p.requiredCategories then
          (p, ctx, some ⟨p.policyId, "Category is not allowed"⟩)
        else (p, ctx, none)

/-- `TimeLockPolicy` state. -/
structure TimeLockPolicy where
  policyId : String
  enabled : Bool
  baseLockDuration : List (Category × ℤ)
  amountFactor : ℚ
deriving DecidableEq

/-- `TimeLockPolicy.calculate_lock_duration`:
`base_lock_duration.get(category, 3600) + int(amount / amount_factor) * 3600`. -/
def TimeLockPolicy.calculateLockDuration (p : TimeLockPolicy) (amount : ℚ) (c : Category) : ℤ :=
  agetD p.baseLockDuration c 3600 + pyInt (amount / p.amountFactor) * 3600

/-- `TimeLockPolicy.validate`: contributes to the `required_time_lock`
output channel, never raises. -/
def TimeLockPolicy.validate (p : TimeLockPolicy) (tx : Transaction) (ctx : ValidationContext) :
    TimeLockPolicy × ValidationContext × Option PolicyViolation :=
  if p.enabled = false then (p, ctx, none)
  else
    let c := ctx.category.getD Category.other
    let lockDuration := p.calculateLockDuration tx.amount c
    (p, { ctx with requiredTimeLock := max ctx.requiredTimeLock lockDuration }, none)

/-- `AmountThresholdPolicy` state: ranges `(min, max, threshold)`; the
source keeps them sorted by `min` via `add_threshold_range`. -/
structure AmountThresholdPolicy where
  policyId : String
  enabled : Bool
  thresholds : List (ℚ × ℚ × ℤ)
deriving DecidableEq

/-- First range `[min, max)` containing the amount, in list order. -/
def findThresholdRange : List (ℚ × ℚ × ℤ) → ℚ → Option ℤ
  | [], _ => none
  | (mn, mx, th) :: rest, amount =>
      if mn ≤ amount ∧ amount < mx then some th else findThresholdRange rest amount

/-- `AmountThresholdPolicy.get_required_threshold`: first matching range,
else the last range's threshold, else `2`. -/
def AmountThresholdPolicy.getRequiredThreshold (p : AmountThresholdPolicy) (amount : ℚ) : ℤ :=
  match findThresholdRange p.thresholds amount with
  | some th => th
  | none =>
      match p.thresholds.getLast? with
      | some (_, _, th) => th
      | none => 2

/-- `AmountThresholdPolicy.validate`: contributes to the
`required_threshold` output channel, never raises. -/
def AmountThresholdPolicy.validate (p : AmountThresholdPolicy) (tx : Transaction)
    (ctx : ValidationContext) :
    AmountThresholdPolicy × ValidationContext × Option PolicyViolation :=
  if p.enabled = false then (p, ctx, none)
  else
    let th := p.getRequiredThreshold tx.amount
    (p, { ctx with requiredThreshold := max ctx.requiredThreshold th }, none)

/-- `ApprovalPolicy` state (`multi_tier_signers` is never read by
`validate`; kept for completeness). -/
structure ApprovalPolicy where
  policyId : String
  enabled : Bool
  requiredSignersByCategory : List (Category × Finset String)
  vetoSigners : Finset String
  multiTierSigners : List (String × ℤ)
deriving DecidableEq

/-- The veto loop of `ApprovalPolicy.validate`: a violation when any veto
signer appears among the signatures. -/
def ApprovalPolicy.vetoViolation (p : ApprovalPolicy) (ctx : ValidationContext) :
    Option PolicyViolation :=
  if ∃ v ∈ p.vetoSigners, v ∈ ctx.signatures.map Prod.fst then
    some ⟨p.policyId, "Veto signer cannot approve this proposal"⟩
  else none

/-- `ApprovalPolicy.validate`. -/
def ApprovalPolicy.validate (p : ApprovalPolicy) (_tx : Transaction) (ctx : ValidationContext) :
    ApprovalPolicy × ValidationContext × Option PolicyViolation :=
  if p.enabled = false then (p, ctx, none)
  else
    let c := ctx.category.getD Category.other
    match alookup p.requiredSignersByCategory c with
    | some required =>
        if ¬ (∀ s ∈ required, s ∈ ctx.signatures.map Prod.fst) then
          (p, ctx, some ⟨p.policyId, "Missing required signers"⟩)
        else (p, ctx, p.vetoViolation ctx)
    | none => (p, ctx, p.vetoViolation ctx)

/-- The closed set of policy variants the claims exercise (see the header
note on `SpendingLimitPolicy`). -/
inductive Policy where
  | whitelist (p : WhitelistPolicy)
  | categoryRule (p : CategoryPolicy)
  | timeLock (p : TimeLockPolicy)
  | amountThreshold (p : AmountThresholdPolicy)
  | approval (p : ApprovalPolicy)
deriving DecidableEq

/-- Dynamic dispatch of `BasePolicy.validate`. -/
def Policy.validate (pol : Policy) (tx : Transaction) (ctx : ValidationContext) :
    Policy × ValidationContext × Option PolicyViolation :=
  match pol with
  | .whitelist p =>
      match p.validate tx ctx with
      | (p2, ctx2, res) => (.whitelist p2, ctx2, res)
  | .categoryRule p =>
      match p.validate tx ctx with
      | (p2, ctx2, res) => (.categoryRule p2, ctx2, res)
  | .timeLock p =>
      match p.validate tx ctx with
      | (p2, ctx2, res) => (.timeLock p2, ctx2, res)
  | .amountThreshold p =>
      match p.validate tx ctx with
      | (p2, ctx2, res) => (.amountThreshold p2, ctx2, res)
  | .approval p =>
      match p.validate tx ctx with
      | (p2, ctx2, res) => (.approval p2, ctx2, res)

/-- `PolicyManager` state: `policy_id → policy`, insertion-ordered. -/
structure PolicyManager where
  policies : List (String × Policy)
deriving DecidableEq

/-- `PolicyManager.validate_transaction` body: iterate the policies in
order, threading the context and the mutated policy objects; the first
violation stops the iteration but keeps all mutations made so far. -/
def runPolicies (tx : Transaction) :
    List (String × Policy) → ValidationContext →
    List (String × Policy) × ValidationContext × Option PolicyViolation
  | [], ctx => ([], ctx, none)
  | (pid, pol) :: rest, ctx =>
      match pol.validate tx ctx with
      | (pol2, ctx2, some v) => ((pid, pol2) :: rest, ctx2, some v)
      | (pol2, ctx2, none) =>
          match runPolicies tx rest ctx2 with
          | (rest2, ctx3, res) => ((pid, pol2) :: rest2, ctx3, res)

/-- `PolicyManager.validate_transaction`. -/
def PolicyManager.validateTransaction (pm : PolicyManager) (tx : Transaction)
    (ctx : ValidationContext) : PolicyManager × ValidationContext × Option PolicyViolation :=
  match runPolicies tx pm.policies ctx with
  | (ps2, ctx2, res) => (⟨ps2⟩, ctx2, res)

/-- Inner loop of `PolicyManager.get_required_time_lock`: only
`TimeLockPolicy` instances are invoked.  Their `validate` reads neither
`current_time` nor `signatures`, so the dummy values the entry point puts
in the context are never observed (the source context omits those keys). -/
def timeLockFoldPolicies (tx : Transaction) :
    List (String × Policy) → ValidationContext → ValidationContext
  | [], ctx => ctx
  | (_, Policy.timeLock p) :: rest, ctx =>
      timeLockFoldPolicies tx rest (p.validate tx ctx).2.1
  | _ :: rest, ctx => timeLockFoldPolicies tx rest ctx

/-- Outer loop of `PolicyManager.get_required_time_lock`. -/
def timeLockFoldTxs (ps : List (String × Policy)) :
    List Transaction → ValidationContext → ValidationContext
  | [], ctx => ctx
  | tx :: rest, ctx => timeLockFoldTxs ps rest (timeLockFoldPolicies tx ps ctx)

/-- `PolicyManager.get_required_time_lock`. -/
def PolicyManager.getRequiredTimeLock (pm : PolicyManager) (txs : List Transaction)
    (c : Category) : ℤ :=
  (timeLockFoldTxs pm.policies txs ⟨some c, 0, [], 0, 0⟩).requiredTimeLock

/-- `max(t.amount for t in transactions)` with Python returning `0` for an
empty list (guarded by `if transactions else 0`). -/
def maxAmount (txs : List Transaction) : ℚ :=
  match txs.map Transaction.amount with
  | [] => 0
  | a :: rest => rest.foldl max a

/-- Inner loop of `PolicyManager.get_required_threshold`: only
`AmountThresholdPolicy` instances are invoked. -/
def amountThresholdFoldPolicies (tx : Transaction) :
    List (String × Policy) → ValidationContext → ValidationContext
  | [], ctx => ctx
  | (_, Policy.amountThreshold p) :: rest, ctx =>
      amountThresholdFoldPolicies tx rest (p.validate tx ctx).2.1
  | _ :: rest, ctx => amountThresholdFoldPolicies tx rest ctx

/-- Outer loop of `PolicyManager.get_required_threshold`; the source
recomputes `max_amount` over the whole list at each iteration, always to
the same value, hoisted here. -/
def amountThresholdFoldTxs (ps : List (String × Policy)) (m : ℚ) :
    List Transaction → ValidationContext → ValidationContext
  | [], ctx => ctx
  | tx :: rest, ctx =>
      amountThresholdFoldTxs ps m rest
        (if 0 < m then amountThresholdFoldPolicies tx ps ctx else ctx)

/-- `PolicyManager.get_required_threshold`.  The source ends with
`context.get("required_threshold", 2)`, but the context is created as a
dict already holding `required_threshold = 0`, so the `2` default is
unreachable and the initialised channel value is returned. -/
def PolicyManager.getRequiredThreshold (pm : PolicyManager) (txs : List Transaction) : ℤ :=
  (amountThresholdFoldTxs pm.policies (maxAmount txs) txs ⟨none, 0, [], 0, 0⟩).requiredThreshold

/-! ## Errors (`treasury.py`, §7 error taxonomy)

`permissionError` is the spec's PermissionDenied, `valueError` covers
InvalidArgument / NotFound / InvalidState (all `ValueError` in the
source), `runtimeError` is RuntimeFault. -/

/-- Exception kinds raised by the treasury, with the static message of the
raise site. -/
inductive Err where
  | permissionError (message : String)
  | valueError (message : String)
  | runtimeError (message : String)
  | policyViolation (policyName message : String)
deriving DecidableEq

/-! ## Emergency module (`emergency.py`)

In the source `EmergencyModule.emergency_signers` is the very set object
stored in `TreasuryConfig.emergency_signers` (aliased at construction), so
the embedding keeps one copy in the config and passes it to the module
functions. -/

/-- `EmergencyModule` state. -/
structure EmergencyModule where
  emergencyThreshold : ℤ
  actions : List (Nat × EmergencyAction)
  nextActionId : Nat
deriving DecidableEq

/-- `EmergencyModule.create_emergency_action`. -/
def EmergencyModule.createEmergencyAction (m : EmergencyModule) (signers : Finset String)
    (initiator actionType reason : String) (t : ℚ) : EmergencyModule × Except Err Nat :=
  if initiator ∉ signers then (m, .error (.permissionError "is not an emergency signer"))
  else
    let aid := m.nextActionId
    ({ m with
        actions := aset m.actions aid ⟨aid, actionType, initiator, t, reason, [], false, none⟩,
        nextActionId := aid + 1 }, .ok aid)

/-- `EmergencyModule.sign_emergency_action`. -/
def EmergencyModule.signEmergencyAction (m : EmergencyModule) (signers : Finset String)
    (aid : Nat) (signer sigBytes : String) (t : ℚ) : EmergencyModule × Except Err Unit :=
  match alookup m.actions aid with
  | none => (m, .error (.valueError "Emergency action not found"))
  | some a =>
      if signer ∉ signers then (m, .error (.permissionError "is not an emergency signer"))
      else if (alookup a.signatures signer).isSome then
        (m, .error (.valueError "has already signed this action"))
      else if a.executed then (m, .error (.valueError "Cannot sign an executed emergency action"))
      else
        let a2 := { a with signatures := aset a.signatures signer ⟨signer, sigBytes, t, ""⟩ }
        ({ m with actions := aset m.actions aid a2 }, .ok ())

/-- `EmergencyModule.can_execute_action`. -/
def EmergencyModule.canExecuteAction (m : EmergencyModule) (aid : Nat) : Bool :=
  match alookup m.actions aid with
  | none => false
  | some a => decide (m.emergencyThreshold ≤ (a.signatures.length : ℤ)) && !a.executed

/-! ## Treasury core (`treasury.py`) -/

/-- One audit-log entry: `(action, actor, proposal_id)`; the wall-clock
timestamp and free-form details dict of the source are external here. -/
structure AuditEntry where
  action : String
  actor : String
  proposalId : Option Nat
deriving DecidableEq

/-- The full treasury state. -/
structure Treasury where
  treasuryId : String
  config : TreasuryConfig
  balances : List (String × ℚ)
  proposals : List (Nat × Proposal)
  policyManager : PolicyManager
  emergencyModule : EmergencyModule
  spendingRecords : List SpendingRecord
  auditLogs : List AuditEntry
  frozen : Bool
  nextProposalId : Nat
deriving DecidableEq

/-- `Treasury.__init__`.  Python truthiness: an explicit
`emergency_threshold=0` and an explicit empty `emergency_signers` set are
falsy, so both fall back to the defaults exactly like `None`. -/
def Treasury.mk? (treasuryId : String) (signers : Finset String) (threshold : ℤ)
    (emergencyThreshold : Option ℤ) (emergencySigners : Option (Finset String)) :
    Except Err Treasury :=
  if (signers.card : ℤ) < threshold then
    .error (.valueError "Threshold cannot exceed number of signers")
  else
    let defaultEThr : ℤ := (signers.card / 2 + 1 : ℕ)
    let eThr : ℤ :=
      match emergencyThreshold with
      | some e => if e = 0 then defaultEThr else e
      | none => defaultEThr
    let eSigners : Finset String :=
      match emergencySigners with
      | some s => if s = ∅ then signers else s
      | none => signers
    .ok { treasuryId := treasuryId,
          config := ⟨treasuryId, signers, threshold, eThr, eSigners, 86400, none⟩,
          balances := [], proposals := [], policyManager := ⟨[]⟩,
          emergencyModule := ⟨eThr, [], 0⟩,
          spendingRecords := [], auditLogs := [], frozen := false, nextProposalId := 0 }

/-- `Treasury.add_signer`. -/
def Treasury.addSigner (T : Treasury) (newSigner authorizer : String) :
    Treasury × Except Err Unit :=
  if authorizer ∉ T.config.signers then
    (T, .error (.permissionError "is not an authorized signer"))
  else
    ({ T with
        config := { T.config with signers := insert newSigner T.config.signers },
        auditLogs := T.auditLogs ++ [⟨"add_signer", authorizer, none⟩] }, .ok ())

/-- `Treasury.remove_signer`. -/
def Treasury.removeSigner (T : Treasury) (target authorizer : String) :
    Treasury × Except Err Unit :=
  if authorizer ∉ T.config.signers then
    (T, .error (.permissionError "is not an authorized signer"))
  else if (T.config.signers.card : ℤ) ≤ T.config.threshold then
    (T, .error (.valueError "Cannot remove signer when it would drop below threshold"))
  else
    ({ T with
        config := { T.config with
          signers := T.config.signers.erase target,
          emergencySigners := T.config.emergencySigners.erase target },
        auditLogs := T.auditLogs ++ [⟨"remove_signer", authorizer, none⟩] }, .ok ())

/-- `Treasury.deposit` (absent coin types start at a zero balance; the
`last_updated` wall-clock stamp is external here). -/
def Treasury.deposit (T : Treasury) (coinType : String) (amount : ℚ) (depositor : String) :
    Treasury × Except Err Unit :=
  if amount ≤ 0 then (T, .error (.valueError "Deposit amount must be positive"))
  else
    ({ T with
        balances := aset T.balances coinType (agetD T.balances coinType 0 + amount),
        auditLogs := T.auditLogs ++ [⟨"deposit", depositor, none⟩] }, .ok ())

/-- `Treasury._compute_proposal_hash`: the source applies the host hash to
`(proposal_id, transaction hashes, category value)`; claims treat it as
opaque, so a deterministic string of the same data is kept. -/
def computeProposalHash (p : Proposal) : String :=
  toString p.proposalId ++ "|" ++ String.intercalate "," (p.transactions.map Transaction.computeHash)

/-- The per-transaction validation loop of `Treasury.create_proposal`: a
fresh context (empty signatures) per transaction; policy-object mutations
persist across iterations and survive a violation. -/
def validateProposalTxs : PolicyManager → Category → ℚ → List Transaction →
    PolicyManager × Option PolicyViolation
  | pm, _, _, [] => (pm, none)
  | pm, cat, t, tx :: rest =>
      match pm.validateTransaction tx ⟨some cat, t, [], 0, 0⟩ with
      | (pm2, _, some v) => (pm2, some v)
      | (pm2, _, none) => validateProposalTxs pm2 cat t rest

/-- `Treasury.create_proposal`. -/
def Treasury.createProposal (T : Treasury) (creator : String) (txs : List Transaction)
    (cat : Category) (descr : String) (t : ℚ) : Treasury × Except Err Nat :=
  if creator ∉ T.config.signers then
    (T, .error (.permissionError "is not an authorized signer"))
  else if T.frozen then
    (T, .error (.runtimeError "Treasury is frozen. Cannot create proposals."))
  else if txs.isEmpty then
    (T, .error (.valueError "Proposal must contain at least one transaction"))
  else if 50 < txs.length then
    (T, .error (.valueError "Maximum 50 transactions per proposal"))
  else
    match validateProposalTxs T.policyManager cat t txs with
    | (pm2, some v) =>
        ({ T with policyManager := pm2 },
         .error (.policyViolation v.policyName ("Proposal validation failed: " ++ v.message)))
    | (pm2, none) =>
        let pid := T.nextProposalId
        let lockDuration := pm2.getRequiredTimeLock txs cat
        let thr := max T.config.threshold (pm2.getRequiredThreshold txs)
        let p : Proposal :=
          ⟨pid, creator, txs, cat, descr, thr, t, lockDuration, .timeLocked, [], none, none⟩
        ({ T with
            policyManager := pm2,
            proposals := aset T.proposals pid p,
            nextProposalId := pid + 1,
            auditLogs := T.auditLogs ++ [⟨"create_proposal", creator, some pid⟩] }, .ok pid)

/-- `Treasury.sign_proposal`. -/
def Treasury.signProposal (T : Treasury) (pid : Nat) (signer sigBytes : String) (t : ℚ) :
    Treasury × Except Err Unit :=
  match alookup T.proposals pid with
  | none => (T, .error (.valueError "Proposal not found"))
  | some p =>
      if signer ∉ T.config.signers then
        (T, .error (.permissionError "is not an authorized signer"))
      else if ¬ (p.status = .pending ∨ p.status = .timeLocked) then
        (T, .error (.valueError "Cannot sign proposal in this status"))
      else if (alookup p.signatures signer).isSome then
        (T, .error (.valueError "has already signed this proposal"))
      else
        let p2 := { p with
          signatures := aset p.signatures signer ⟨signer, sigBytes, t, computeProposalHash p⟩ }
        ({ T with
            proposals := aset T.proposals pid p2,
            auditLogs := T.auditLogs ++ [⟨"sign_proposal", signer, some pid⟩] }, .ok ())

/-- The running state of the `execute_proposal` transaction loop. -/
structure ExecState where
  pm : PolicyManager
  balances : List (String × ℚ)
  records : List SpendingRecord
  err : Option Err
deriving DecidableEq

/-- The `try` body of `Treasury.execute_proposal`: per transaction,
re-validate against current state, check the balance exists, withdraw
(`TreasuryBalance.withdraw` raises on a non-positive amount and reports
insufficiency), and append a spending record.  The first failure stops the
loop; everything already done stays done. -/
def executeTransactions (cat : Category) (sigs : List (String × Signature)) (pid : Nat)
    (t : ℚ) : PolicyManager → List (String × ℚ) → List SpendingRecord →
    List Transaction → ExecState
  | pm, bal, recs, [] => ⟨pm, bal, recs, none⟩
  | pm, bal, recs, tx :: rest =>
      match pm.validateTransaction tx ⟨some cat, t, sigs, 0, 0⟩ with
      | (pm2, _, some v) => ⟨pm2, bal, recs, some (.policyViolation v.policyName v.message)⟩
      | (pm2, _, none) =>
          match alookup bal tx.coinType with
          | none => ⟨pm2, bal, recs, some (.valueError "No balance for coin type")⟩
          | some b =>
              if tx.amount ≤ 0 then
                ⟨pm2, bal, recs, some (.valueError "Withdrawal amount must be positive")⟩
              else if b < tx.amount then
                ⟨pm2, bal, recs, some (.valueError "Insufficient balance")⟩
              else
                executeTransactions cat sigs pid t pm2 (aset bal tx.coinType (b - tx.amount))
                  (recs ++ [⟨tx.amount, t, cat, pid, tx.computeHash⟩]) rest

/-- `Treasury.execute_proposal`. -/
def Treasury.executeProposal (T : Treasury) (pid : Nat) (executor : String) (t : ℚ) :
    Treasury × Except Err Unit :=
  match alookup T.proposals pid with
  | none => (T, .error (.valueError "Proposal not found"))
  | some p =>
      if p.canExecute t = false then
        (T, .error (.valueError "Proposal cannot execute"))
      else
        match executeTransactions p.category p.signatures pid t
            T.policyManager T.balances T.spendingRecords p.transactions with
        | ⟨pm2, bal2, recs2, none⟩ =>
            let p2 := { p with status := .executed, executedAt := some t }
            ({ T with
                policyManager := pm2,
                balances := bal2,
                spendingRecords := recs2,
                proposals := aset T.proposals pid p2,
                auditLogs := T.auditLogs ++ [⟨"execute_proposal", executor, some pid⟩] },
             .ok ())
        | ⟨pm2, bal2, recs2, some e⟩ =>
            let p2 := { p with status := .failed }
            ({ T with
                policyManager := pm2,
                balances := bal2,
                spendingRecords := recs2,
                proposals := aset T.proposals pid p2,
                auditLogs := T.auditLogs ++ [⟨"execute_proposal_failed", executor, some pid⟩] },
             .error e)

/-- `Treasury.cancel_proposal`. -/
def Treasury.cancelProposal (T : Treasury) (pid : Nat) (canceller : String) (t : ℚ) :
    Treasury × Except Err Unit :=
  match alookup T.proposals pid with
  | none => (T, .error (.valueError "Proposal not found"))
  | some p =>
      if p.creator ≠ canceller ∧ (alookup p.signatures canceller).isNone then
        (T, .error (.permissionError "cannot cancel this proposal"))
      else if p.status = .executed then
        (T, .error (.valueError "Cannot cancel an executed proposal"))
      else if p.status = .cancelled then
        (T, .error (.valueError "Proposal already cancelled"))
      else
        let p2 := { p with status := .cancelled, cancelledAt := some t }
        ({ T with
            proposals := aset T.proposals pid p2,
            auditLogs := T.auditLogs ++ [⟨"cancel_proposal", canceller, some pid⟩] }, .ok ())

/-- `Treasury.trigger_emergency_freeze`. -/
def Treasury.triggerEmergencyFreeze (T : Treasury) (initiator reason : String) (t : ℚ) :
    Treasury × Except Err Nat :=
  if initiator ∉ T.config.emergencySigners then
    (T, .error (.permissionError "is not an emergency signer"))
  else if T.config.canTriggerEmergency t = false then
    (T, .error (.runtimeError "Emergency cooldown period still active"))
  else
    match T.emergencyModule.createEmergencyAction T.config.emergencySigners
        initiator "freeze" reason t with
    | (m2, .ok aid) =>
        ({ T with
            emergencyModule := m2,
            auditLogs := T.auditLogs ++ [⟨"emergency_freeze_initiated", initiator, none⟩] },
         .ok aid)
    | (m2, .error e) => ({ T with emergencyModule := m2 }, .error e)

/-- `Treasury.sign_emergency_action`. -/
def Treasury.signEmergencyAction (T : Treasury) (aid : Nat) (signer sigBytes : String)
    (t : ℚ) : Treasury × Except Err Unit :=
  if signer ∉ T.config.emergencySigners then
    (T, .error (.permissionError "is not an emergency signer"))
  else
    match T.emergencyModule.signEmergencyAction T.config.emergencySigners aid signer
        sigBytes t with
    | (m2, .ok ()) =>
        ({ T with
            emergencyModule := m2,
            auditLogs := T.auditLogs ++ [⟨"emergency_action_signed", signer, none⟩] }, .ok ())
    | (m2, .error e) => ({ T with emergencyModule := m2 }, .error e)

/-- `Treasury.execute_emergency_action`: checks existence and the
signature count against `config.emergency_threshold`; it never consults
`EmergencyModule.can_execute_action`, so an already-executed action is
re-executable.  A non-freeze action type falls through and returns
without effect. -/
def Treasury.executeEmergencyAction (T : Treasury) (aid : Nat) (executor : String) (t : ℚ) :
    Treasury × Except Err Unit :=
  match alookup T.emergencyModule.actions aid with
  | none => (T, .error (.valueError "Emergency action not found"))
  | some a =>
      if (a.signatures.length : ℤ) < T.config.emergencyThreshold then
        (T, .error (.valueError "Insufficient signatures"))
      else if a.actionType = "freeze" then
        let a2 := { a with executed := true, executedAt := some t }
        ({ T with
            frozen := true,
            config := { T.config with lastEmergencyAt := some t },
            emergencyModule :=
              { T.emergencyModule with actions := aset T.emergencyModule.actions aid a2 },
            auditLogs := T.auditLogs ++ [⟨"emergency_action_executed", executor, none⟩] },
         .ok ())
      else (T, .ok ())

/-- `Treasury.unfreeze_treasury`. -/
def Treasury.unfreezeTreasury (T : Treasury) (signer _reason : String) (_t : ℚ) :
    Treasury × Except Err Unit :=
  if signer ∉ T.config.emergencySigners then
    (T, .error (.permissionError "is not an emergency signer"))
  else if T.frozen = false then (T, .error (.valueError "Treasury is not frozen"))
  else
    ({ T with
        frozen := false,
        auditLogs := T.auditLogs ++ [⟨"treasury_unfrozen", signer, none⟩] }, .ok ())

/-! ## Public operations and reachability -/

/-- One invocation of a public treasury operation.  `setPolicies` covers
the public `PolicyManager` surface (`add_policy` / `remove_policy`) and
the public mutators of the policy objects, conservatively allowing any
manager built from the modelled variants. -/
inductive Op where
  | addSigner (newSigner authorizer : String)
  | removeSigner (target authorizer : String)
  | deposit (coinType : String) (amount : ℚ) (depositor : String)
  | createProposal (creator : String) (txs : List Transaction) (cat : Category)
      (descr : String) (t : ℚ)
  | signProposal (pid : Nat) (signer sigBytes : String) (t : ℚ)
  | executeProposal (pid : Nat) (executor : String) (t : ℚ)
  | cancelProposal (pid : Nat) (canceller : String) (t : ℚ)
  | triggerEmergencyFreeze (initiator reason : String) (t : ℚ)
  | signEmergencyAction (aid : Nat) (signer sigBytes : String) (t : ℚ)
  | executeEmergencyAction (aid : Nat) (executor : String) (t : ℚ)
  | unfreezeTreasury (signer reason : String) (t : ℚ)
  | setPolicies (pm : PolicyManager)

/-- The state after an operation, whether it succeeded or raised (a raise
keeps every mutation already performed). -/
def applyOp (T : Treasury) : Op → Treasury
  | .addSigner n a => (T.addSigner n a).1
  | .removeSigner trg a => (T.removeSigner trg a).1
  | .deposit c amt d => (T.deposit c amt d).1
  | .createProposal cr txs cat d t => (T.createProposal cr txs cat d t).1
  | .signProposal pid s sg t => (T.signProposal pid s sg t).1
  | .executeProposal pid ex t => (T.executeProposal pid ex t).1
  | .cancelProposal pid cn t => (T.cancelProposal pid cn t).1
  | .triggerEmergencyFreeze i r t => (T.triggerEmergencyFreeze i r t).1
  | .signEmergencyAction aid s sg t => (T.signEmergencyAction aid s sg t).1
  | .executeEmergencyAction aid ex t => (T.executeEmergencyAction aid ex t).1
  | .unfreezeTreasury s r t => (T.unfreezeTreasury s r t).1
  | .setPolicies pm => { T with policyManager := pm }

/-- Treasury states reachable from a successful construction by any
sequence of public operations, failed calls included. -/
inductive Reachable : Treasury → Prop where
  | init : ∀ id signers threshold eThr eSigners T,
      Treasury.mk? id signers threshold eThr eSigners = .ok T → Reachable T
  | step : ∀ T op, Reachable T → Reachable (applyOp T op)

/-- Decidable equality of results, used to evaluate concrete runs. -/
instance {ε α : Type} [DecidableEq ε] [DecidableEq α] : DecidableEq (Except ε α) := fun x y =>
  match x, y with
  | .ok a, .ok b =>
      if h : a = b then isTrue (by rw [h]) else isFalse (by simp [h])
  | .error e, .error f =>
      if h : e = f then isTrue (by rw [h]) else isFalse (by simp [h])
  | .ok _, .error _ => isFalse (by simp)
  | .error _, .ok _ => isFalse (by simp)

/-! ## Association-list lemmas -/

@[simp] lemma alookup_nil {κ α : Type} [DecidableEq κ] (key : κ) :
    alookup ([] : List (κ × α)) key = none := rfl

lemma alookup_aset_self {κ α : Type} [DecidableEq κ] (l : List (κ × α)) (k : κ) (v : α) :
    alookup (aset l k v) k = some v := by
  induction l with
  | nil => simp [aset, alookup]
  | cons hd tl ih =>
      obtain ⟨k0, v0⟩ := hd
      by_cases h : k = k0
      · simp [aset, alookup, h]
      · simp [aset, alookup, h, ih]

lemma alookup_aset_ne {κ α : Type} [DecidableEq κ] (l : List (κ × α)) (k k' : κ) (v : α)
    (h : k' ≠ k) : alookup (aset l k v) k' = alookup l k' := by
  induction l with
  | nil => simp [aset, alookup, h]
  | cons hd tl ih =>
      obtain ⟨k0, v0⟩ := hd
      by_cases h0 : k = k0
      · subst h0
        simp [aset, alookup, h]
      · by_cases h1 : k' = k0 <;> simp [aset, alookup, h0, h1, ih]

lemma alookup_aset_cases {κ α : Type} [DecidableEq κ] {l : List (κ × α)} {k k' : κ} {v w : α}
    (h : alookup (aset l k v) k' = some w) :
    (k' = k ∧ w = v) ∨ (k' ≠ k ∧ alookup l k' = some w) := by
  by_cases hk : k' = k
  · subst hk
    rw [alookup_aset_self] at h
    exact Or.inl ⟨rfl, (Option.some_inj.mp h).symm⟩
  · rw [alookup_aset_ne l k k' v hk] at h
    exact Or.inr ⟨hk, h⟩

/-! ## Lemmas about the execution loop -/

lemma executeTransactions_records (cat : Category) (sigs : List (String × Signature))
    (pid : Nat) (t : ℚ) :
    ∀ (txs : List Transaction) (pm : PolicyManager) (bal : List (String × ℚ))
      (recs : List SpendingRecord),
      ∀ r ∈ (executeTransactions cat sigs pid t pm bal recs txs).records,
        r ∈ recs ∨ r.proposalId = pid := by
  intro txs
  induction txs with
  | nil => intro pm bal recs r hr; exact Or.inl hr
  | cons tx rest ih =>
      intro pm bal recs r hr
      rw [executeTransactions] at hr
      split at hr
      · exact Or.inl hr
      · split at hr
        · exact Or.inl hr
        · split at hr
          · exact Or.inl hr
          · split at hr
            · exact Or.inl hr
            · rcases ih _ _ _ r hr with hmem | hpid
              · rcases List.mem_append.mp hmem with hold | hnew
                · exact Or.inl hold
                · right
                  rcases List.mem_singleton.mp hnew with rfl
                  rfl
              · exact Or.inr hpid

lemma executeTransactions_err (cat : Category) (sigs : List (String × Signature))
    (pid : Nat) (t : ℚ) :
    ∀ (txs : List Transaction) (pm : PolicyManager) (bal : List (String × ℚ))
      (recs : List SpendingRecord) (e : Err),
      (executeTransactions cat sigs pid t pm bal recs txs).err = some e →
        (∃ n m, e = .policyViolation n m) ∨
        e = .valueError "No balance for coin type" ∨
        e = .valueError "Withdrawal amount must be positive" ∨
        e = .valueError "Insufficient balance" := by
  intro txs
  induction txs with
  | nil => intro pm bal recs e he; simp [executeTransactions] at he
  | cons tx rest ih =>
      intro pm bal recs e he
      rw [executeTransactions] at he
      split at he
      · rename_i pm2 ctx2 v hv
        left
        exact ⟨v.policyName, v.message, (Option.some_inj.mp he).symm⟩
      · split at he
        · right; left
          exact (Option.some_inj.mp he).symm
        · split at he
          · right; right; left
            exact (Option.some_inj.mp he).symm
          · split at he
            · right; right; right
              exact (Option.some_inj.mp he).symm
            · exact ih _ _ _ _ he

/-! ## State invariants over reachable treasuries -/

/-- Every proposal key is below the fresh-id counter. -/
def ProposalsBounded (T : Treasury) : Prop :=
  ∀ pid p, alookup T.proposals pid = some p → pid < T.nextProposalId

/-- Every spending record points at an existing proposal whose status is
terminal. -/
def RecordsTerminal (T : Treasury) : Prop :=
  ∀ r ∈ T.spendingRecords, ∃ p, alookup T.proposals r.proposalId = some p ∧
    (p.status = .executed ∨ p.status = .failed ∨ p.status = .cancelled)

/-- The inductive invariant carried through the proposal bookkeeping. -/
def GoodState (T : Treasury) : Prop := ProposalsBounded T ∧ RecordsTerminal T

lemma goodState_congr {T T' : Treasury} (hp : T'.proposals = T.proposals)
    (hr : T'.spendingRecords = T.spendingRecords) (hn : T'.nextProposalId = T.nextProposalId)
    (h : GoodState T) : GoodState T' := by
  obtain ⟨hb, hrec⟩ := h
  constructor
  · intro pid p hq
    rw [hp] at hq
    rw [hn]
    exact hb pid p hq
  · intro r hmem
    rw [hr] at hmem
    rw [hp]
    exact hrec r hmem

lemma goodState_signProposal (T : Treasury) (pid : Nat) (s sg : String) (t : ℚ)
    (h : GoodState T) : GoodState (T.signProposal pid s sg t).1 := by
  obtain ⟨hb, hrec⟩ := h
  unfold Treasury.signProposal
  split
  · exact ⟨hb, hrec⟩
  · rename_i p hp
    split
    · exact ⟨hb, hrec⟩
    · split
      · exact ⟨hb, hrec⟩
      · split
        · exact ⟨hb, hrec⟩
        · constructor
          · intro pid2 q hq
            rcases alookup_aset_cases hq with ⟨rfl, rfl⟩ | ⟨hne, hq2⟩
            · exact hb _ _ hp
            · exact hb _ _ hq2
          · intro r hmem
            rcases hrec r hmem with ⟨q, hq, hst⟩
            by_cases hid : r.proposalId = pid
            · rw [hid] at hq
              rw [hp] at hq
              rcases Option.some_inj.mp hq with rfl
              refine ⟨_, by rw [hid]; exact alookup_aset_self _ _ _, ?_⟩
              exact hst
            · exact ⟨q, by rw [alookup_aset_ne _ _ _ _ hid]; exact hq, hst⟩

lemma goodState_cancelProposal (T : Treasury) (pid : Nat) (cn : String) (t : ℚ)
    (h : GoodState T) : GoodState (T.cancelProposal pid cn t).1 := by
  obtain ⟨hb, hrec⟩ := h
  unfold Treasury.cancelProposal
  split
  · exact ⟨hb, hrec⟩
  · rename_i p hp
    split
    · exact ⟨hb, hrec⟩
    · split
      · exact ⟨hb, hrec⟩
      · split
        · exact ⟨hb, hrec⟩
        · constructor
          · intro pid2 q hq
            rcases alookup_aset_cases hq with ⟨rfl, rfl⟩ | ⟨hne, hq2⟩
            · exact hb _ _ hp
            · exact hb _ _ hq2
          · intro r hmem
            rcases hrec r hmem with ⟨q, hq, hst⟩
            by_cases hid : r.proposalId = pid
            · refine ⟨_, by rw [hid]; exact alookup_aset_self _ _ _, ?_⟩
              right; right; rfl
            · exact ⟨q, by rw [alookup_aset_ne _ _ _ _ hid]; exact hq, hst⟩

lemma goodState_createProposal (T : Treasury) (cr : String) (txs : List Transaction)
    (cat : Category) (d : String) (t : ℚ) (h : GoodState T) :
    GoodState (T.createProposal cr txs cat d t).1 := by
  obtain ⟨hb, hrec⟩ := h
  unfold Treasury.createProposal
  split
  · exact ⟨hb, hrec⟩
  · split
    · exact ⟨hb, hrec⟩
    · split
      · exact ⟨hb, hrec⟩
      · split
        · exact ⟨hb, hrec⟩
        · split
          · exact ⟨hb, hrec⟩
          · constructor
            · intro pid2 q hq
              rcases alookup_aset_cases hq with ⟨rfl, rfl⟩ | ⟨hne, hq2⟩
              · exact Nat.lt_succ_self _
              · exact Nat.lt_trans (hb _ _ hq2) (Nat.lt_succ_self _)
            · intro r hmem
              rcases hrec r hmem with ⟨q, hq, hst⟩
              have hne : r.proposalId ≠ T.nextProposalId :=
                Nat.ne_of_lt (hb _ _ hq)
              exact ⟨q, by rw [alookup_aset_ne _ _ _ _ hne]; exact hq, hst⟩

lemma goodState_executeProposal (T : Treasury) (pid : Nat) (ex : String) (t : ℚ)
    (h : GoodState T) : GoodState (T.executeProposal pid ex t).1 := by
  obtain ⟨hb, hrec⟩ := h
  unfold Treasury.executeProposal
  split
  · exact ⟨hb, hrec⟩
  · rename_i p hp
    split
    · exact ⟨hb, hrec⟩
    · split
      · rename_i pm2 bal2 recs2 heq
        constructor
        · intro pid2 q hq
          rcases alookup_aset_cases hq with ⟨rfl, rfl⟩ | ⟨hne, hq2⟩
          · exact hb _ _ hp
          · exact hb _ _ hq2
        · intro r hmem
          have hmem2 : r ∈ (executeTransactions p.category p.signatures pid t
              T.policyManager T.balances T.spendingRecords p.transactions).records := by
            rw [heq]; exact hmem
          rcases executeTransactions_records p.category p.signatures pid t
              p.transactions T.policyManager T.balances T.spendingRecords r hmem2 with
            hold | hnew
          · rcases hrec r hold with ⟨q, hq, hst⟩
            by_cases hid : r.proposalId = pid
            · refine ⟨_, by rw [hid]; exact alookup_aset_self _ _ _, ?_⟩
              left; rfl
            · exact ⟨q, by rw [alookup_aset_ne _ _ _ _ hid]; exact hq, hst⟩
          · refine ⟨_, by rw [hnew]; exact alookup_aset_self _ _ _, ?_⟩
            left; rfl
      · rename_i pm2 bal2 recs2 e heq
        constructor
        · intro pid2 q hq
          rcases alookup_aset_cases hq with ⟨rfl, rfl⟩ | ⟨hne, hq2⟩
          · exact hb _ _ hp
          · exact hb _ _ hq2
        · intro r hmem
          have hmem2 : r ∈ (executeTransactions p.category p.signatures pid t
              T.policyManager T.balances T.spendingRecords p.transactions).records := by
            rw [heq]; exact hmem
          rcases executeTransactions_records p.category p.signatures pid t
              p.transactions T.policyManager T.balances T.spendingRecords r hmem2 with
            hold | hnew
          · rcases hrec r hold with ⟨q, hq, hst⟩
            by_cases hid : r.proposalId = pid
            · refine ⟨_, by rw [hid]; exact alookup_aset_self _ _ _, ?_⟩
              right; left; rfl
            · exact ⟨q, by rw [alookup_aset_ne _ _ _ _ hid]; exact hq, hst⟩
          · refine ⟨_, by rw [hnew]; exact alookup_aset_self _ _ _, ?_⟩
            right; left; rfl

lemma goodState_applyOp (T : Treasury) (op : Op) (h : GoodState T) :
    GoodState (applyOp T op) := by
  cases op with
  | addSigner n a =>
      show GoodState (T.addSigner n a).1
      exact goodState_congr (by unfold Treasury.addSigner; split <;> (try split) <;> (try split) <;> rfl)
        (by unfold Treasury.addSigner; split <;> (try split) <;> (try split) <;> rfl)
        (by unfold Treasury.addSigner; split <;> (try split) <;> (try split) <;> rfl) h
  | removeSigner trg a =>
      show GoodState (T.removeSigner trg a).1
      exact goodState_congr (by unfold Treasury.removeSigner; split <;> (try split) <;> (try split) <;> rfl)
        (by unfold Treasury.removeSigner; split <;> (try split) <;> (try split) <;> rfl)
        (by unfold Treasury.removeSigner; split <;> (try split) <;> (try split) <;> rfl) h
  | deposit c amt d =>
      show GoodState (T.deposit c amt d).1
      exact goodState_congr (by unfold Treasury.deposit; split <;> (try split) <;> (try split) <;> rfl)
        (by unfold Treasury.deposit; split <;> (try split) <;> (try split) <;> rfl)
        (by unfold Treasury.deposit; split <;> (try split) <;> (try split) <;> rfl) h
  | createProposal cr txs cat d t =>
      show GoodState (T.createProposal cr txs cat d t).1
      exact goodState_createProposal T cr txs cat d t h
  | signProposal pid s sg t =>
      show GoodState (T.signProposal pid s sg t).1
      exact goodState_signProposal T pid s sg t h
  | executeProposal pid ex t =>
      show GoodState (T.executeProposal pid ex t).1
      exact goodState_executeProposal T pid ex t h
  | cancelProposal pid cn t =>
      show GoodState (T.cancelProposal pid cn t).1
      exact goodState_cancelProposal T pid cn t h
  | triggerEmergencyFreeze i r t =>
      show GoodState (T.triggerEmergencyFreeze i r t).1
      exact goodState_congr
        (by unfold Treasury.triggerEmergencyFreeze; split <;> (try split) <;> (try split) <;> rfl)
        (by unfold Treasury.triggerEmergencyFreeze; split <;> (try split) <;> (try split) <;> rfl)
        (by unfold Treasury.triggerEmergencyFreeze; split <;> (try split) <;> (try split) <;> rfl) h
  | signEmergencyAction aid s sg t =>
      show GoodState (T.signEmergencyAction aid s sg t).1
      exact goodState_congr
        (by unfold Treasury.signEmergencyAction; split <;> (try split) <;> (try split) <;> rfl)
        (by unfold Treasury.signEmergencyAction; split <;> (try split) <;> (try split) <;> rfl)
        (by unfold Treasury.signEmergencyAction; split <;> (try split) <;> (try split) <;> rfl) h
  | executeEmergencyAction aid ex t =>
      show GoodState (T.executeEmergencyAction aid ex t).1
      exact goodState_congr
        (by unfold Treasury.executeEmergencyAction; split <;> (try split) <;> (try split) <;> rfl)
        (by unfold Treasury.executeEmergencyAction; split <;> (try split) <;> (try split) <;> rfl)
        (by unfold Treasury.executeEmergencyAction; split <;> (try split) <;> (try split) <;> rfl) h
  | unfreezeTreasury s r t =>
      show GoodState (T.unfreezeTreasury s r t).1
      exact goodState_congr
        (by unfold Treasury.unfreezeTreasury; split <;> (try split) <;> (try split) <;> rfl)
        (by unfold Treasury.unfreezeTreasury; split <;> (try split) <;> (try split) <;> rfl)
        (by unfold Treasury.unfreezeTreasury; split <;> (try split) <;> (try split) <;> rfl) h
  | setPolicies pm =>
      show GoodState { T with policyManager := pm }
      exact goodState_congr rfl rfl rfl h

lemma reachable_goodState (T : Treasury) (h : Reachable T) : GoodState T := by
  induction h with
  | init id s thr eT eS T0 h0 =>
      unfold Treasury.mk? at h0
      split at h0
      · exact absurd h0 (by simp)
      · rcases Except.ok.inj h0 with rfl
        constructor
        · intro pid p hq
          simp [alookup] at hq
        · intro r hmem
          simp at hmem
  | step T0 op hR ih => exact goodState_applyOp T0 op ih

/-- The configured threshold never exceeds the signer count. -/
def ThresholdOk (T : Treasury) : Prop :=
  T.config.threshold ≤ (T.config.signers.card : ℤ)

lemma thresholdOk_congr {T T' : Treasury}
    (hthr : T'.config.threshold = T.config.threshold)
    (hs : T'.config.signers = T.config.signers) (h : ThresholdOk T) : ThresholdOk T' := by
  unfold ThresholdOk at *
  rw [hthr, hs]
  exact h

lemma thresholdOk_applyOp (T : Treasury) (op : Op) (h : ThresholdOk T) :
    ThresholdOk (applyOp T op) := by
  cases op with
  | addSigner n a =>
      show ThresholdOk (T.addSigner n a).1
      unfold Treasury.addSigner
      split
      · exact h
      · refine le_trans h ?_
        exact_mod_cast Finset.card_le_card (Finset.subset_insert n T.config.signers)
  | removeSigner trg a =>
      show ThresholdOk (T.removeSigner trg a).1
      unfold Treasury.removeSigner
      split
      · exact h
      · split
        · exact h
        · rename_i hlt
          show T.config.threshold ≤ ((T.config.signers.erase trg).card : ℤ)
          have h1 : T.config.signers.card - 1 ≤ (T.config.signers.erase trg).card :=
            Finset.pred_card_le_card_erase
          have h2 : ¬ ((T.config.signers.card : ℤ) ≤ T.config.threshold) := hlt
          omega
  | deposit c amt d =>
      show ThresholdOk (T.deposit c amt d).1
      refine thresholdOk_congr ?_ ?_ h <;>
        (unfold Treasury.deposit
         split <;> (try split) <;> (try split) <;> (try split) <;> (try split) <;> rfl)
  | createProposal cr txs cat d t =>
      show ThresholdOk (T.createProposal cr txs cat d t).1
      refine thresholdOk_congr ?_ ?_ h <;>
        (unfold Treasury.createProposal
         split <;> (try split) <;> (try split) <;> (try split) <;> (try split) <;> rfl)
  | signProposal pid s sg t =>
      show ThresholdOk (T.signProposal pid s sg t).1
      refine thresholdOk_congr ?_ ?_ h <;>
        (unfold Treasury.signProposal
         split <;> (try split) <;> (try split) <;> (try split) <;> (try split) <;> rfl)
  | executeProposal pid ex t =>
      show ThresholdOk (T.executeProposal pid ex t).1
      refine thresholdOk_congr ?_ ?_ h <;>
        (unfold Treasury.executeProposal
         split <;> (try split) <;> (try split) <;> (try split) <;> (try split) <;> rfl)
  | cancelProposal pid cn t =>
      show ThresholdOk (T.cancelProposal pid cn t).1
      refine thresholdOk_congr ?_ ?_ h <;>
        (unfold Treasury.cancelProposal
         split <;> (try split) <;> (try split) <;> (try split) <;> (try split) <;> rfl)
  | triggerEmergencyFreeze i r t =>
      show ThresholdOk (T.triggerEmergencyFreeze i r t).1
      refine thresholdOk_congr ?_ ?_ h <;>
        (unfold Treasury.triggerEmergencyFreeze
         split <;> (try split) <;> (try split) <;> (try split) <;> (try split) <;> rfl)
  | signEmergencyAction aid s sg t =>
      show ThresholdOk (T.signEmergencyAction aid s sg t).1
      refine thresholdOk_congr ?_ ?_ h <;>
        (unfold Treasury.signEmergencyAction
         split <;> (try split) <;> (try split) <;> (try split) <;> (try split) <;> rfl)
  | executeEmergencyAction aid ex t =>
      show ThresholdOk (T.executeEmergencyAction aid ex t).1
      refine thresholdOk_congr ?_ ?_ h <;>
        (unfold Treasury.executeEmergencyAction
         split <;> (try split) <;> (try split) <;> (try split) <;> (try split) <;> rfl)
  | unfreezeTreasury s r t =>
      show ThresholdOk (T.unfreezeTreasury s r t).1
      refine thresholdOk_congr ?_ ?_ h <;>
        (unfold Treasury.unfreezeTreasury
         split <;> (try split) <;> (try split) <;> (try split) <;> (try split) <;> rfl)
  | setPolicies pm =>
      show ThresholdOk { T with policyManager := pm }
      exact thresholdOk_congr rfl rfl h

lemma reachable_thresholdOk (T : Treasury) (h : Reachable T) : ThresholdOk T := by
  induction h with
  | init id s thr eT eS T0 h0 =>
      unfold Treasury.mk? at h0
      split at h0
      · exact absurd h0 (by simp)
      · rename_i hle
        rcases Except.ok.inj h0 with rfl
        unfold ThresholdOk
        simpa using not_lt.mp hle
  | step T0 op hR ih => exact thresholdOk_applyOp T0 op ih

/-! ## Claim-side formulas for the time-lock policy (C6) -/

/-- Maximum of a list of integers, bottoming at `0`. -/
def listMaxZ (l : List ℤ) : ℤ := l.foldr max 0

lemma listMaxZ_cons (v : ℤ) (vs : List ℤ) : listMaxZ (v :: vs) = max v (listMaxZ vs) := rfl

lemma listMaxZ_nonneg (l : List ℤ) : 0 ≤ listMaxZ l := by
  induction l with
  | nil => simp [listMaxZ]
  | cons v vs ih =>
      rw [listMaxZ_cons]
      exact le_trans ih (le_max_right v (listMaxZ vs))

lemma listMaxZ_zeros (txs : List Transaction) :
    listMaxZ (txs.map (fun _ => (0 : ℤ))) = 0 := by
  induction txs with
  | nil => rfl
  | cons tx rest ih => rw [List.map_cons, listMaxZ_cons, ih]; simp

/-- The enabled `TimeLockPolicy` instances of a policy list. -/
def enabledTimeLockPoliciesOf (ps : List (String × Policy)) : List TimeLockPolicy :=
  ps.filterMap (fun pr =>
    match pr.2 with
    | Policy.timeLock p => if p.enabled then some p else none
    | _ => none)

/-- The enabled `TimeLockPolicy` instances held by a manager. -/
def enabledTimeLockPolicies (pm : PolicyManager) : List TimeLockPolicy :=
  enabledTimeLockPoliciesOf pm.policies

/-- The lock-duration formula as the specification states it:
`base[category] (default 3600) + floor(amount / amount_factor) * 3600`. -/
def specTimeLockDuration (p : TimeLockPolicy) (amount : ℚ) (c : Category) : ℤ :=
  agetD p.baseLockDuration c 3600 + ⌊amount / p.amountFactor⌋ * 3600

/-- The proposal's effective lock as the specification states it: the
maximum over all transactions (and enabled time-lock policies) of the
per-transaction lock, `0` when nothing contributes. -/
def specRequiredTimeLock (pm : PolicyManager) (txs : List Transaction) (c : Category) : ℤ :=
  listMaxZ (txs.map (fun tx =>
    listMaxZ ((enabledTimeLockPolicies pm).map (fun p => specTimeLockDuration p tx.amount c))))

/-- Per-transaction code-side contributions of the time-lock policies. -/
def timeLockDurations (ps : List (String × Policy)) (c : Category) (tx : Transaction) :
    List ℤ :=
  (enabledTimeLockPoliciesOf ps).map (fun p => p.calculateLockDuration tx.amount c)

lemma le_foldl_max (a : ℤ) (l : List ℤ) : a ≤ l.foldl max a := by
  induction l generalizing a with
  | nil => simp
  | cons v vs ih =>
      show a ≤ vs.foldl max (max a v)
      exact le_trans (le_max_left a v) (ih (max a v))

lemma foldl_max_eq (l : List ℤ) : ∀ a : ℤ, 0 ≤ a → l.foldl max a = max a (listMaxZ l) := by
  induction l with
  | nil =>
      intro a h
      show a = max a (listMaxZ [])
      rw [show listMaxZ [] = 0 from rfl]
      exact (max_eq_left h).symm
  | cons v vs ih =>
      intro a h
      show vs.foldl max (max a v) = max a (listMaxZ (v :: vs))
      rw [ih (max a v) (le_trans h (le_max_left a v)), listMaxZ_cons, max_assoc]

lemma foldl_inner_max_eq (f : Transaction → List ℤ) (txs : List Transaction) :
    ∀ a : ℤ, 0 ≤ a →
      txs.foldl (fun acc tx => (f tx).foldl max acc) a =
        max a (listMaxZ (txs.map (fun tx => listMaxZ (f tx)))) := by
  induction txs with
  | nil =>
      intro a h
      show a = max a (listMaxZ [])
      rw [show listMaxZ [] = 0 from rfl]
      exact (max_eq_left h).symm
  | cons tx rest ih =>
      intro a h
      show rest.foldl (fun acc t => (f t).foldl max acc) ((f tx).foldl max a) = _
      rw [ih ((f tx).foldl max a) (le_trans h (le_foldl_max a (f tx))),
        foldl_max_eq (f tx) a h, List.map_cons, listMaxZ_cons, max_assoc]

lemma timeLockFoldPolicies_eq (tx : Transaction) (ps : List (String × Policy)) :
    ∀ ctx : ValidationContext,
      timeLockFoldPolicies tx ps ctx =
        { ctx with requiredTimeLock := (timeLockDurations ps (ctx.category.getD Category.other) tx).foldl max ctx.requiredTimeLock } := by
  induction ps with
  | nil => intro ctx; rfl
  | cons pr rest ih =>
      intro ctx
      obtain ⟨pid, pol⟩ := pr
      cases pol with
      | whitelist p =>
          rw [show timeLockFoldPolicies tx ((pid, Policy.whitelist p) :: rest) ctx =
            timeLockFoldPolicies tx rest ctx from rfl, ih]
          rfl
      | categoryRule p =>
          rw [show timeLockFoldPolicies tx ((pid, Policy.categoryRule p) :: rest) ctx =
            timeLockFoldPolicies tx rest ctx from rfl, ih]
          rfl
      | amountThreshold p =>
          rw [show timeLockFoldPolicies tx ((pid, Policy.amountThreshold p) :: rest) ctx =
            timeLockFoldPolicies tx rest ctx from rfl, ih]
          rfl
      | approval p =>
          rw [show timeLockFoldPolicies tx ((pid, Policy.approval p) :: rest) ctx =
            timeLockFoldPolicies tx rest ctx from rfl, ih]
          rfl
      | timeLock p =>
          rw [show timeLockFoldPolicies tx ((pid, Policy.timeLock p) :: rest) ctx =
            timeLockFoldPolicies tx rest (p.validate tx ctx).2.1 from rfl]
          unfold TimeLockPolicy.validate
          by_cases he : p.enabled = false
          · rw [if_pos he, ih]
            have hd : timeLockDurations ((pid, Policy.timeLock p) :: rest)
                (ctx.category.getD Category.other) tx =
                timeLockDurations rest (ctx.category.getD Category.other) tx := by
              simp [timeLockDurations, enabledTimeLockPoliciesOf, he]
            rw [hd]
          · rw [if_neg he]
            have he2 : p.enabled = true := by
              revert he; cases p.enabled <;> simp
            rw [ih]
            have hd : timeLockDurations ((pid, Policy.timeLock p) :: rest)
                (ctx.category.getD Category.other) tx =
                p.calculateLockDuration tx.amount (ctx.category.getD Category.other) ::
                  timeLockDurations rest (ctx.category.getD Category.other) tx := by
              simp [timeLockDurations, enabledTimeLockPoliciesOf, he2]
            rw [hd]
            rfl

lemma timeLockFoldTxs_eq (ps : List (String × Policy)) (txs : List Transaction) :
    ∀ ctx : ValidationContext,
      timeLockFoldTxs ps txs ctx =
        { ctx with requiredTimeLock := txs.foldl (fun acc tx => (timeLockDurations ps (ctx.category.getD Category.other) tx).foldl max acc) ctx.requiredTimeLock } := by
  induction txs with
  | nil => intro ctx; rfl
  | cons tx rest ih =>
      intro ctx
      rw [show timeLockFoldTxs ps (tx :: rest) ctx =
        timeLockFoldTxs ps rest (timeLockFoldPolicies tx ps ctx) from rfl,
        timeLockFoldPolicies_eq tx ps ctx, ih]
      rfl

lemma getRequiredTimeLock_eq_spec (pm : PolicyManager) (txs : List Transaction) (c : Category)
    (hA : ∀ tx ∈ txs, 0 ≤ tx.amount)
    (hF : ∀ p ∈ enabledTimeLockPolicies pm, 0 ≤ p.amountFactor) :
    pm.getRequiredTimeLock txs c = specRequiredTimeLock pm txs c := by
  unfold PolicyManager.getRequiredTimeLock
  rw [timeLockFoldTxs_eq]
  show txs.foldl (fun acc tx => (timeLockDurations pm.policies c tx).foldl max acc) 0 = _
  rw [foldl_inner_max_eq (timeLockDurations pm.policies c) txs 0 le_rfl,
    max_eq_right (listMaxZ_nonneg _)]
  unfold specRequiredTimeLock
  refine congrArg listMaxZ (List.map_congr_left ?_)
  intro tx htx
  refine congrArg listMaxZ (List.map_congr_left ?_)
  intro p hp
  unfold TimeLockPolicy.calculateLockDuration specTimeLockDuration pyInt
  rw [if_neg (not_lt.mpr (div_nonneg (hA tx htx) (hF p hp)))]

/-! ## Concrete runs used by counterexamples and witnesses -/

/-- A small transfer used throughout the concrete runs. -/
def txT : Transaction := ⟨"t1", .transfer, "r", 50, "SUI", ""⟩

/-- A transfer larger than any deposited balance in the runs. -/
def txBig : Transaction := ⟨"t2", .transfer, "r", 500, "SUI", ""⟩

/-- Fold a list of public operations over a state. -/
def runOps : Treasury → List Op → Treasury
  | T, [] => T
  | T, op :: rest => runOps (applyOp T op) rest

lemma reachable_runOps (ops : List Op) :
    ∀ T : Treasury, Reachable T → Reachable (runOps T ops) := by
  induction ops with
  | nil => intro T h; exact h
  | cons op rest ih => intro T h; exact ih (applyOp T op) (Reachable.step T op h)

/-- The state `Treasury("t", signers={a,b}, threshold=1)` constructs. -/
def cex2Init : Treasury :=
  ⟨"t", ⟨"t", {"a", "b"}, 1, 2, {"a", "b"}, 86400, none⟩, [], [], ⟨[]⟩, ⟨2, [], 0⟩,
    [], [], false, 0⟩

lemma cex2Init_mk : Treasury.mk? "t" {"a", "b"} 1 none none = .ok cex2Init := by decide

lemma cex2Init_reachable : Reachable cex2Init :=
  Reachable.init _ _ _ _ _ _ cex2Init_mk

/-- Deposit 100 SUI, create a two-transaction proposal (50 then 500 SUI),
sign it, and execute: the first transaction debits and records, the second
fails on insufficient balance, so the proposal ends `Failed` with one
spending record already appended. -/
def cex2T : Treasury :=
  runOps cex2Init
    [.deposit "SUI" 100 "a", .createProposal "a" [txT, txBig] .operations "d" 0,
     .signProposal 0 "a" "sig" 0, .executeProposal 0 "a" 0]

lemma cex2T_reachable : Reachable cex2T :=
  reachable_runOps _ cex2Init cex2Init_reachable

/-- The state `Treasury("t", signers={a}, threshold=1)` constructs. -/
def cex3Init : Treasury :=
  ⟨"t", ⟨"t", {"a"}, 1, 1, {"a"}, 86400, none⟩, [], [], ⟨[]⟩, ⟨1, [], 0⟩, [], [], false, 0⟩

lemma cex3Init_mk : Treasury.mk? "t" {"a"} 1 none none = .ok cex3Init := by decide

/-- Create a one-transaction proposal with no deposit, sign, execute: the
execution fails on the missing balance and the proposal ends `Failed`. -/
def cex3T : Treasury :=
  runOps cex3Init
    [.createProposal "a" [txT] .operations "d" 0, .signProposal 0 "a" "sig" 0,
     .executeProposal 0 "a" 0]

lemma cex3T_reachable : Reachable cex3T :=
  reachable_runOps _ cex3Init (Reachable.init _ _ _ _ _ _ cex3Init_mk)

/-- The `Failed` proposal held by `cex3T`. -/
def cex3P : Proposal :=
  ⟨0, "a", [txT], .operations, "d", 1, 0, 0, .failed,
    [("a", ⟨"a", "sig", 0, "0|t1|r|SUI"⟩)], none, none⟩

/-! ## Claims -/

/-- C1: `execute_proposal` passes its precondition check exactly when
`t ≥ created_at + time_lock_duration`, `|signatures| ≥ threshold_required`
and the status is Pending or TimeLocked; otherwise it raises the
InvalidState error of the gate and leaves the state untouched.  In
particular exactly-threshold signatures at exactly the unlock instant pass
the gate (see the witness). -/
theorem executeProposal_precondition (T : Treasury) (pid : Nat) (p : Proposal)
    (executor : String) (t : ℚ) (h : alookup T.proposals pid = some p) :
    (¬ (p.createdAt + (p.timeLockDuration : ℚ) ≤ t ∧
        p.thresholdRequired ≤ (p.signatures.length : ℤ) ∧
        (p.status = .pending ∨ p.status = .timeLocked)) →
      T.executeProposal pid executor t = (T, .error (.valueError "Proposal cannot execute"))) ∧
    ((p.createdAt + (p.timeLockDuration : ℚ) ≤ t ∧
        p.thresholdRequired ≤ (p.signatures.length : ℤ) ∧
        (p.status = .pending ∨ p.status = .timeLocked)) →
      (T.executeProposal pid executor t).2 ≠ .error (.valueError "Proposal cannot execute")) := by
  have hc : p.canExecute t = true ↔
      (p.createdAt + (p.timeLockDuration : ℚ) ≤ t ∧
       p.thresholdRequired ≤ (p.signatures.length : ℤ) ∧
       (p.status = .pending ∨ p.status = .timeLocked)) := by
    unfold Proposal.canExecute
    simp [Bool.and_eq_true, Bool.or_eq_true, decide_eq_true_eq, and_assoc]
  constructor
  · intro hnp
    have hfalse : p.canExecute t = false := by
      cases hcb : p.canExecute t
      · rfl
      · exact absurd (hc.mp hcb) hnp
    unfold Treasury.executeProposal
    simp only [h]
    rw [if_pos hfalse]
  · intro hp
    have htrue := hc.mpr hp
    unfold Treasury.executeProposal
    simp only [h]
    rw [if_neg (by simp [htrue])]
    rcases hE : executeTransactions p.category p.signatures pid t T.policyManager
        T.balances T.spendingRecords p.transactions with ⟨pm2, bal2, recs2, _ | e⟩
    · intro hx
      exact Except.noConfusion hx
    · intro hEq
      have hE2 : Except.error e =
          (Except.error (Err.valueError "Proposal cannot execute") : Except Err Unit) := hEq
      have hE3 := Except.error.inj hE2
      have hshape := executeTransactions_err p.category p.signatures pid t p.transactions
        T.policyManager T.balances T.spendingRecords e (by rw [hE])
      rw [hE3] at hshape
      rcases hshape with ⟨n, m, hsh⟩ | hsh | hsh | hsh
      · exact Err.noConfusion hsh
      · exact absurd hsh (by decide)
      · exact absurd hsh (by decide)
      · exact absurd hsh (by decide)

/-- A proposal with exactly threshold signatures, at exactly the unlock
instant (`created_at = 10`, lock `0`, `t = 10`). -/
def w1P : Proposal :=
  ⟨0, "a", [txT], .operations, "d", 1, 10, 0, .timeLocked,
    [("a", ⟨"a", "sig", 10, "h"⟩)], none, none⟩

/-- A treasury holding `w1P` and enough balance to execute it. -/
def w1T : Treasury :=
  ⟨"t", ⟨"t", {"a"}, 1, 1, {"a"}, 86400, none⟩, [("SUI", 100)], [(0, w1P)], ⟨[]⟩,
    ⟨1, [], 0⟩, [], [], false, 1⟩

/-- C1 witness: the boundary case of the claim — exactly threshold
signatures at exactly `created_at + time_lock_duration` passes the gate. -/
theorem executeProposal_precondition_witness :
    (w1P.createdAt + (w1P.timeLockDuration : ℚ) ≤ 10 ∧
     w1P.thresholdRequired ≤ (w1P.signatures.length : ℤ) ∧
     (w1P.status = .pending ∨ w1P.status = .timeLocked)) ∧
    (w1T.executeProposal 0 "outsider" 10).2 ≠
      .error (.valueError "Proposal cannot execute") :=
  ⟨by with_unfolding_all decide, (executeProposal_precondition w1T 0 w1P "outsider" 10 (by with_unfolding_all decide)).2 (by with_unfolding_all decide)⟩

/-- C2 (amended): in every reachable treasury state, each spending record
references an existing proposal in a terminal status — `Executed`, or
`Failed` when the execution failed after some debits were already
recorded, or `Cancelled` when such a failed proposal was later cancelled.
The original claim (always `Executed`) fails, see the counterexample. -/
theorem spendingRecords_reference_terminal (T : Treasury) (h : Reachable T) :
    ∀ r ∈ T.spendingRecords, ∃ p, alookup T.proposals r.proposalId = some p ∧
      (p.status = .executed ∨ p.status = .failed ∨ p.status = .cancelled) :=
  (reachable_goodState T h).2

/-- C2 counterexample: a reachable state whose only spending record points
at a proposal of status `Failed`, not `Executed` — the first transaction
of a two-transaction proposal debited and recorded before the second
failed on insufficient balance. -/
theorem spendingRecords_executed_counterexample :
    Reachable cex2T ∧
    cex2T.spendingRecords.map SpendingRecord.proposalId = [0] ∧
    (alookup cex2T.proposals 0).map Proposal.status = some .failed ∧
    ProposalStatus.failed ≠ ProposalStatus.executed :=
  ⟨cex2T_reachable, by with_unfolding_all decide, by with_unfolding_all decide, by with_unfolding_all decide⟩

/-- C2 witness: the amended invariant evaluated on the concrete reachable
state of the counterexample run. -/
theorem spendingRecords_reference_terminal_witness :
    Reachable cex2T ∧
    (∀ r ∈ cex2T.spendingRecords, ∃ p, alookup cex2T.proposals r.proposalId = some p ∧
      (p.status = .executed ∨ p.status = .failed ∨ p.status = .cancelled)) :=
  ⟨cex2T_reachable, spendingRecords_reference_terminal cex2T cex2T_reachable⟩

/-- C3 (amended): for an authorized canceller, `cancel_proposal` rejects
with InvalidState only the `Executed` and `Cancelled` statuses (leaving
the state unchanged); a `Failed` proposal — also terminal — is cancelled
successfully and moves to `Cancelled`. -/
theorem cancelProposal_terminal (T : Treasury) (pid : Nat) (p : Proposal)
    (canceller : String) (t : ℚ) (h : alookup T.proposals pid = some p)
    (hauth : p.creator = canceller ∨ (alookup p.signatures canceller).isSome = true) :
    (p.status = .executed →
      T.cancelProposal pid canceller t =
        (T, .error (.valueError "Cannot cancel an executed proposal"))) ∧
    (p.status = .cancelled →
      T.cancelProposal pid canceller t =
        (T, .error (.valueError "Proposal already cancelled"))) ∧
    (p.status = .failed →
      (T.cancelProposal pid canceller t).2 = .ok () ∧
      alookup (T.cancelProposal pid canceller t).1.proposals pid =
        some { p with status := .cancelled, cancelledAt := some t }) := by
  have hperm : ¬ (p.creator ≠ canceller ∧ (alookup p.signatures canceller).isNone = true) := by
    rcases hauth with h1 | h2
    · intro hcon; exact hcon.1 h1
    · intro hcon
      rcases halk : alookup p.signatures canceller with _ | sig
      · rw [halk] at h2; exact Bool.noConfusion h2
      · rw [halk] at hcon; exact Bool.noConfusion hcon.2
  unfold Treasury.cancelProposal
  simp only [h]
  rw [if_neg hperm]
  refine ⟨?_, ?_, ?_⟩
  · intro hst
    rw [if_pos hst]
  · intro hst
    rw [if_neg (by simp [hst]), if_pos hst]
  · intro hst
    rw [if_neg (by simp [hst]), if_neg (by simp [hst])]
    exact ⟨rfl, alookup_aset_self _ _ _⟩

/-- C3 counterexample: a reachable `Failed` (terminal) proposal is
cancelled by its creator: the call succeeds and the status changes to
`Cancelled`, contradicting "disallowed on terminal states". -/
theorem cancelProposal_terminal_counterexample :
    Reachable cex3T ∧
    (alookup cex3T.proposals 0).map Proposal.status = some .failed ∧
    (cex3T.cancelProposal 0 "a" 0).2 = .ok () ∧
    (alookup (cex3T.cancelProposal 0 "a" 0).1.proposals 0).map Proposal.status =
      some .cancelled :=
  ⟨cex3T_reachable, by with_unfolding_all decide, by with_unfolding_all decide, by with_unfolding_all decide⟩

/-- C3 witness: the amended statement applied to the concrete failed
proposal of the counterexample run. -/
theorem cancelProposal_terminal_witness :
    (cex3T.cancelProposal 0 "a" 0).2 = .ok () ∧
    alookup (cex3T.cancelProposal 0 "a" 0).1.proposals 0 =
      some { cex3P with status := .cancelled, cancelledAt := some 0 } :=
  (cancelProposal_terminal cex3T 0 cex3P "a" 0 (by with_unfolding_all decide) (Or.inl (by with_unfolding_all decide))).2.2
    (by with_unfolding_all decide)

/-- C4 (amended): over every reachable state
`config.threshold ≤ |config.signers|` holds, construction succeeds exactly
when `threshold ≤ |signers|` (so `threshold < 1` is accepted, contrary to
the original claim — see the counterexample), and `remove_signer` rejects
a removal that would drop the signer count below the threshold. -/
theorem treasury_threshold_invariant :
    (∀ T : Treasury, Reachable T → T.config.threshold ≤ (T.config.signers.card : ℤ)) ∧
    (∀ (id : String) (s : Finset String) (thr : ℤ) (eT : Option ℤ)
        (eS : Option (Finset String)),
      (Treasury.mk? id s thr eT eS).isOk = true ↔ thr ≤ (s.card : ℤ)) ∧
    (∀ (T : Treasury) (trg auth : String), auth ∈ T.config.signers →
      (T.config.signers.card : ℤ) ≤ T.config.threshold →
      T.removeSigner trg auth =
        (T, .error (.valueError "Cannot remove signer when it would drop below threshold"))) := by
  refine ⟨fun T h => reachable_thresholdOk T h, ?_, ?_⟩
  · intro id s thr eT eS
    unfold Treasury.mk?
    by_cases hc : (s.card : ℤ) < thr
    · rw [if_pos hc]
      exact iff_of_false (by simp [Except.isOk, Except.toBool]) (by omega)
    · rw [if_neg hc]
      exact iff_of_true rfl (by omega)
  · intro T trg auth hmem hcard
    unfold Treasury.removeSigner
    rw [if_neg (not_not_intro hmem), if_pos hcard]

/-- C4 counterexample: construction with `threshold = 0` (outside
`[1, |signers|]`) is accepted and yields a treasury whose configured
threshold is `0 < 1`. -/
theorem treasury_threshold_counterexample :
    (Treasury.mk? "t" {"a"} 0 none none).isOk = true ∧
    (Treasury.mk? "t" {"a"} 0 none none).toOption.map
      (fun T => T.config.threshold) = some 0 ∧
    ¬ ((1 : ℤ) ≤ 0) :=
  ⟨by with_unfolding_all decide, by with_unfolding_all decide, by with_unfolding_all decide⟩

/-- C4 witness: the amended invariant and the construction criterion
evaluated on the concrete two-signer treasury. -/
theorem treasury_threshold_invariant_witness :
    Reachable cex2Init ∧
    cex2Init.config.threshold ≤ (cex2Init.config.signers.card : ℤ) ∧
    (Treasury.mk? "t" {"a", "b"} 1 none none).isOk = true :=
  ⟨cex2Init_reachable,
   treasury_threshold_invariant.1 cex2Init cex2Init_reachable,
   (treasury_threshold_invariant.2.1 "t" {"a", "b"} 1 none none).mpr (by with_unfolding_all decide)⟩

/-- C5: with no `AmountThresholdPolicy` contributing — here a manager with
no policies at all — `get_required_threshold` returns `0`, not the
documented default of `2`: the context dict is created already holding
`required_threshold = 0`, so the `context.get(..., 2)` default at the
return site is dead code.  This contradicts the default-2 intent written
into that very return statement. -/
theorem getRequiredThreshold_no_contribution (txs : List Transaction) :
    PolicyManager.getRequiredThreshold ⟨[]⟩ txs = 0 := by
  unfold PolicyManager.getRequiredThreshold
  suffices h : ∀ (m : ℚ) (ctx : ValidationContext),
      amountThresholdFoldTxs ([] : List (String × Policy)) m txs ctx = ctx by
    rw [h]
  induction txs with
  | nil => intro m ctx; rfl
  | cons tx rest ih =>
      intro m ctx
      show amountThresholdFoldTxs [] m rest
        (if 0 < m then amountThresholdFoldPolicies tx [] ctx else ctx) = ctx
      have hif : (if 0 < m then amountThresholdFoldPolicies tx [] ctx else ctx) = ctx := by
        split <;> rfl
      rw [hif, ih]

/-- C6: an enabled time-lock policy computes
`base[category] (default 3600) + floor(amount / amount_factor) * 3600`
for nonnegative amounts (and positive-or-zero factors, the only ones the
source can divide by), and the manager's required lock is the maximum of
that value over all transactions and enabled time-lock policies, `0` when
none is present. -/
theorem timeLock_policy_spec (pm : PolicyManager) (txs : List Transaction) (c : Category)
    (hA : ∀ tx ∈ txs, 0 ≤ tx.amount)
    (hF : ∀ p ∈ enabledTimeLockPolicies pm, 0 ≤ p.amountFactor) :
    (∀ p ∈ enabledTimeLockPolicies pm, ∀ a : ℚ, 0 ≤ a →
        p.calculateLockDuration a c =
          agetD p.baseLockDuration c 3600 + ⌊a / p.amountFactor⌋ * 3600) ∧
    pm.getRequiredTimeLock txs c = specRequiredTimeLock pm txs c ∧
    (enabledTimeLockPolicies pm = [] → pm.getRequiredTimeLock txs c = 0) := by
  have hdur : ∀ p ∈ enabledTimeLockPolicies pm, ∀ a : ℚ, 0 ≤ a →
      p.calculateLockDuration a c =
        agetD p.baseLockDuration c 3600 + ⌊a / p.amountFactor⌋ * 3600 := by
    intro p hp a ha
    unfold TimeLockPolicy.calculateLockDuration pyInt
    rw [if_neg (not_lt.mpr (div_nonneg ha (hF p hp)))]
  have hmain := getRequiredTimeLock_eq_spec pm txs c hA hF
  refine ⟨hdur, hmain, ?_⟩
  intro hempty
  rw [hmain]
  unfold specRequiredTimeLock
  rw [hempty]
  simp only [List.map_nil]
  have : txs.map (fun _ => listMaxZ ([] : List ℤ)) = txs.map (fun _ => (0 : ℤ)) := rfl
  rw [this]
  exact listMaxZ_zeros txs

/-- A manager holding one enabled time-lock policy with the default
factor 1000 and no base-duration overrides. -/
def w6pm : PolicyManager := ⟨[("tl", Policy.timeLock ⟨"tl", true, [], 1000⟩)]⟩

/-- C6 witness: the spec scenario — one transaction of amount 5000 yields
a lock of `3600 + 5 * 3600 = 21600` seconds. -/
theorem timeLock_policy_spec_witness :
    w6pm.getRequiredTimeLock [⟨"t6", .transfer, "r", 5000, "SUI", ""⟩] .operations =
      specRequiredTimeLock w6pm [⟨"t6", .transfer, "r", 5000, "SUI", ""⟩] .operations ∧
    w6pm.getRequiredTimeLock [⟨"t6", .transfer, "r", 5000, "SUI", ""⟩] .operations = 21600 :=
  ⟨(timeLock_policy_spec w6pm [⟨"t6", .transfer, "r", 5000, "SUI", ""⟩] .operations
      (by with_unfolding_all decide) (by with_unfolding_all decide)).2.1, by with_unfolding_all decide⟩

/-- C7: for an enabled whitelist policy and a recipient that is neither
approved nor blacklisted but holds a temporary entry expiring at `e`,
validation succeeds exactly when `current_time < e` (strict, leaving the
policy unchanged); at `e` or later the entry is removed and a
PolicyViolation is raised. -/
theorem whitelist_temporary_expiry (p : WhitelistPolicy) (tx : Transaction)
    (ctx : ValidationContext) (e : ℚ)
    (hen : p.enabled = true)
    (hb : tx.recipient ∉ p.blacklistedRecipients)
    (ha : tx.recipient ∉ p.approvedRecipients)
    (ht : alookup p.temporaryEntries tx.recipient = some e) :
    (ctx.currentTime < e → p.validate tx ctx = (p, ctx, none)) ∧
    (e ≤ ctx.currentTime →
      p.validate tx ctx =
        ({ p with temporaryEntries := aerase p.temporaryEntries tx.recipient }, ctx,
          some ⟨p.policyId, "Recipient is not whitelisted"⟩)) := by
  unfold WhitelistPolicy.validate WhitelistPolicy.isRecipientApproved
  rw [if_neg (by simp [hen])]
  rw [if_neg hb, if_neg ha]
  simp only [ht]
  constructor
  · intro hlt
    rw [if_pos hlt]
  · intro hge
    rw [if_neg (not_lt.mpr hge)]

/-- An enabled whitelist policy with a single temporary entry for the
recipient of `txT`, expiring at time 5. -/
def w7P : WhitelistPolicy := ⟨"wl", true, ∅, ∅, [("r", 5)]⟩

/-- C7 witness: at time 3 the temporary recipient validates; at time 5
(the expiry instant) validation fails and the entry is removed. -/
theorem whitelist_temporary_expiry_witness :
    w7P.validate txT ⟨some .operations, 3, [], 0, 0⟩ =
      (w7P, ⟨some .operations, 3, [], 0, 0⟩, none) ∧
    w7P.validate txT ⟨some .operations, 5, [], 0, 0⟩ =
      ({ w7P with temporaryEntries := [] }, ⟨some .operations, 5, [], 0, 0⟩,
        some ⟨"wl", "Recipient is not whitelisted"⟩) := by
  have h1 := (whitelist_temporary_expiry w7P txT ⟨some .operations, 3, [], 0, 0⟩ 5
    (by with_unfolding_all decide) (by with_unfolding_all decide) (by with_unfolding_all decide) (by with_unfolding_all decide)).1 (by norm_num)
  have h2 := (whitelist_temporary_expiry w7P txT ⟨some .operations, 5, [], 0, 0⟩ 5
    (by with_unfolding_all decide) (by with_unfolding_all decide) (by with_unfolding_all decide) (by with_unfolding_all decide)).2 (by norm_num)
  exact ⟨h1, h2.trans (by with_unfolding_all decide)⟩

/-- C8: while frozen, `create_proposal` raises the RuntimeFault for every
authorized creator and changes nothing; `sign_proposal`,
`execute_proposal` and `cancel_proposal` never read the frozen flag —
their result is identical on states differing only in `frozen`. -/
theorem frozen_blocks_only_create :
    (∀ (T : Treasury) (creator : String) (txs : List Transaction) (cat : Category)
        (d : String) (t : ℚ), creator ∈ T.config.signers → T.frozen = true →
        T.createProposal creator txs cat d t =
          (T, .error (.runtimeError "Treasury is frozen. Cannot create proposals."))) ∧
    (∀ (T : Treasury) (b : Bool) (pid : Nat) (s sg : String) (t : ℚ),
        (Treasury.signProposal { T with frozen := b } pid s sg t).2 =
          (T.signProposal pid s sg t).2) ∧
    (∀ (T : Treasury) (b : Bool) (pid : Nat) (ex : String) (t : ℚ),
        (Treasury.executeProposal { T with frozen := b } pid ex t).2 =
          (T.executeProposal pid ex t).2) ∧
    (∀ (T : Treasury) (b : Bool) (pid : Nat) (cn : String) (t : ℚ),
        (Treasury.cancelProposal { T with frozen := b } pid cn t).2 =
          (T.cancelProposal pid cn t).2) := by
  refine ⟨?_, ?_, ?_, ?_⟩
  · intro T creator txs cat d t hmem hfr
    unfold Treasury.createProposal
    rw [if_neg (not_not_intro hmem), if_pos hfr]
  · intro T b pid s sg t
    have hpr : ({ T with frozen := b } : Treasury).proposals = T.proposals := rfl
    have hcf : ({ T with frozen := b } : Treasury).config = T.config := rfl
    unfold Treasury.signProposal
    rw [hpr, hcf]
    rcases hl : alookup T.proposals pid with _ | p
    · rfl
    · dsimp only
      by_cases h1 : s ∉ T.config.signers
      · rw [if_pos h1, if_pos h1]
      · rw [if_neg h1, if_neg h1]
        by_cases h2 : ¬ (p.status = ProposalStatus.pending ∨ p.status = ProposalStatus.timeLocked)
        · rw [if_pos h2, if_pos h2]
        · rw [if_neg h2, if_neg h2]
          by_cases h3 : (alookup p.signatures s).isSome = true
          · rw [if_pos h3, if_pos h3]
          · rw [if_neg h3, if_neg h3]
  · intro T b pid ex t
    have hpr : ({ T with frozen := b } : Treasury).proposals = T.proposals := rfl
    have hpm : ({ T with frozen := b } : Treasury).policyManager = T.policyManager := rfl
    have hba : ({ T with frozen := b } : Treasury).balances = T.balances := rfl
    have hsp : ({ T with frozen := b } : Treasury).spendingRecords = T.spendingRecords := rfl
    unfold Treasury.executeProposal
    rw [hpr, hpm, hba, hsp]
    rcases hl : alookup T.proposals pid with _ | p
    · rfl
    · dsimp only
      by_cases hc : p.canExecute t = false
      · rw [if_pos hc, if_pos hc]
      · rw [if_neg hc, if_neg hc]
        rcases hE : executeTransactions p.category p.signatures pid t T.policyManager
            T.balances T.spendingRecords p.transactions with ⟨pm2, bal2, recs2, _ | e⟩ <;> rfl
  · intro T b pid cn t
    have hpr : ({ T with frozen := b } : Treasury).proposals = T.proposals := rfl
    unfold Treasury.cancelProposal
    rw [hpr]
    rcases hl : alookup T.proposals pid with _ | p
    · rfl
    · dsimp only
      by_cases h1 : p.creator ≠ cn ∧ (alookup p.signatures cn).isNone = true
      · rw [if_pos h1, if_pos h1]
      · rw [if_neg h1, if_neg h1]
        by_cases h2 : p.status = ProposalStatus.executed
        · rw [if_pos h2, if_pos h2]
        · rw [if_neg h2, if_neg h2]
          by_cases h3 : p.status = ProposalStatus.cancelled
          · rw [if_pos h3, if_pos h3]
          · rw [if_neg h3, if_neg h3]

/-- The two-signer treasury, frozen. -/
def w8T : Treasury := { cex2Init with frozen := true }

/-- C8 witness: on the concrete frozen treasury, an authorized creator is
rejected with the RuntimeFault, and signing is unaffected by the flag. -/
theorem frozen_blocks_only_create_witness :
    w8T.createProposal "a" [txT] .operations "d" 0 =
      (w8T, .error (.runtimeError "Treasury is frozen. Cannot create proposals.")) ∧
    (Treasury.signProposal { cex2Init with frozen := true } 0 "a" "sig" 0).2 =
      (cex2Init.signProposal 0 "a" "sig" 0).2 :=
  ⟨frozen_blocks_only_create.1 w8T "a" [txT] .operations "d" 0 (by with_unfolding_all decide) (by with_unfolding_all decide),
   frozen_blocks_only_create.2.1 cex2Init true 0 "a" "sig" 0⟩

/-- C9: `execute_emergency_action` never rejects an already-executed
action: with at least `emergency_threshold` signatures a repeated call on
a freeze action succeeds again, re-sets `frozen`, overwrites
`last_emergency_at` with the new time (restarting the cooldown), even
though `EmergencyModule.can_execute_action` reports `false` for it. -/
theorem executeEmergencyAction_repeatable (T : Treasury) (aid : Nat) (a : EmergencyAction)
    (ex : String) (t : ℚ)
    (h : alookup T.emergencyModule.actions aid = some a)
    (hf : a.actionType = "freeze")
    (hs : T.config.emergencyThreshold ≤ (a.signatures.length : ℤ))
    (he : a.executed = true) :
    (T.executeEmergencyAction aid ex t).2 = .ok () ∧
    (T.executeEmergencyAction aid ex t).1.frozen = true ∧
    (T.executeEmergencyAction aid ex t).1.config.lastEmergencyAt = some t ∧
    alookup (T.executeEmergencyAction aid ex t).1.emergencyModule.actions aid =
      some { a with executed := true, executedAt := some t } ∧
    T.emergencyModule.canExecuteAction aid = false := by
  unfold Treasury.executeEmergencyAction EmergencyModule.canExecuteAction
  simp [h, he, if_neg (not_lt.mpr hs), if_pos hf, alookup_aset_self]

/-- An already-executed freeze action carrying two signatures. -/
def w9A : EmergencyAction :=
  ⟨0, "freeze", "a", 0, "reason",
    [("a", ⟨"a", "s", 0, ""⟩), ("b", ⟨"b", "s", 0, ""⟩)], true, some 0⟩

/-- A frozen treasury (emergency threshold 2) holding `w9A`. -/
def w9T : Treasury :=
  ⟨"t", ⟨"t", {"a", "b", "c"}, 2, 2, {"a", "b", "c"}, 86400, some 0⟩, [], [], ⟨[]⟩,
    ⟨2, [(0, w9A)], 1⟩, [], [], true, 0⟩

/-- C9 witness: re-executing the executed freeze action at time 9 succeeds
and moves `last_emergency_at` from 0 to 9, while the module itself reports
the action as not executable. -/
theorem executeEmergencyAction_repeatable_witness :
    (w9T.executeEmergencyAction 0 "a" 9).2 = .ok () ∧
    (w9T.executeEmergencyAction 0 "a" 9).1.config.lastEmergencyAt = some 9 ∧
    w9T.emergencyModule.canExecuteAction 0 = false := by
  have h9 := executeEmergencyAction_repeatable w9T 0 w9A "a" 9 (by with_unfolding_all decide) (by with_unfolding_all decide)
    (by with_unfolding_all decide) (by with_unfolding_all decide)
  exact ⟨h9.1, h9.2.2.1, h9.2.2.2.2⟩

/-- Whether a result is the PermissionDenied error kind. -/
def resultIsPermissionDenied : Except Err Unit → Bool
  | .error (.permissionError _) => true
  | _ => false

/-- C10: `execute_proposal` performs no permission check on the executor:
the outcome is identical for any two executor strings (signer or not), and
it is never a PermissionDenied error. -/
theorem executeProposal_no_executor_check (T : Treasury) (pid : Nat) (e1 e2 : String)
    (t : ℚ) :
    (T.executeProposal pid e1 t).2 = (T.executeProposal pid e2 t).2 ∧
    resultIsPermissionDenied (T.executeProposal pid e1 t).2 = false := by
  unfold Treasury.executeProposal
  rcases hl : alookup T.proposals pid with _ | p
  · exact ⟨rfl, rfl⟩
  · dsimp only
    by_cases hc : p.canExecute t = false
    · rw [if_pos hc, if_pos hc]
      exact ⟨rfl, rfl⟩
    · rw [if_neg hc, if_neg hc]
      rcases hE : executeTransactions p.category p.signatures pid t T.policyManager
          T.balances T.spendingRecords p.transactions with ⟨pm2, bal2, recs2, _ | e⟩
      · exact ⟨rfl, rfl⟩
      · refine ⟨rfl, ?_⟩
        have hshape := executeTransactions_err p.category p.signatures pid t
          p.transactions T.policyManager T.balances T.spendingRecords e (by rw [hE])
        show resultIsPermissionDenied (.error e) = false
        rcases hshape with ⟨n, m, rfl⟩ | rfl | rfl | rfl <;> rfl

end FwdSui
